import Mathlib

/-!
Verification of `good_pics_export.py`, a batch utility that exports
five-star photos into fixed-capacity subdirectories, slugifying the
destination filenames and downsizing oversized images in place.

The embedding models:
* image dimensions and `shrink_large` (the Python float `ratio` becomes an
  exact rational; `int()` on a nonnegative float becomes `Nat.floor`);
* the destination-naming pipeline `get_dest_filenames` over strings
  represented as lists of character codes (`List ℕ`);
* the `copy_and_resize` loop as a fold over per-item outcomes, with the
  filesystem/codec responses (destination exists, source missing, decode
  error) supplied as data;
* `parse_args`, with Python's dynamic typing made explicit (`PyVal`), to
  capture that the two numeric flags are stored as strings.
-/

/-- Python strings are represented as lists of Unicode code points
(`List ℕ`); a single character is a code point (`ℕ`).
`pystr` coerces a Lean string literal into that representation. -/
def pystr (s : String) : List ℕ := s.toList.map Char.toNat

/-! ### Image dimensions and `shrink_large` -/

/-- Width and height of an image as reported by the image library. -/
@[ext]
structure ImgDims where
  width : ℕ
  height : ℕ
deriving DecidableEq

/-- `num_pixels = img.height * img.width` (line 42 of the source). -/
def numPixels (img : ImgDims) : ℕ := img.height * img.width

/-- `ratio = pix_limit / num_pixels` (line 45); the Python float division is
modelled as exact rational division. -/
def shrinkFactor (pix_limit : ℕ) (img : ImgDims) : ℚ :=
  (pix_limit : ℚ) / (numPixels img : ℚ)

/-- `new_size = (int(ratio * img.width), int(ratio * img.height))` (line 46);
`int()` truncates toward zero, which on these nonnegative values is the
floor. -/
def newSize (pix_limit : ℕ) (img : ImgDims) : ImgDims :=
  { width := ⌊shrinkFactor pix_limit img * (img.width : ℚ)⌋₊
    height := ⌊shrinkFactor pix_limit img * (img.height : ℚ)⌋₊ }

/-- `shrink_large(file, pix_limit, skip_resize)`: returns the `is_too_big`
flag together with the image stored at `file` afterwards (the source saves
the resized image in place exactly when `is_too_big`). -/
def shrink_large (img : ImgDims) (pix_limit : ℕ) (skip_resize : Bool) :
    Bool × ImgDims :=
  if skip_resize then (false, img)
  else if numPixels img > pix_limit then (true, newSize pix_limit img)
  else (false, img)

/-- The rational scaling followed by truncation equals natural division:
`int(pix_limit / N * d) = pix_limit * d / N`. -/
lemma floor_shrinkFactor_mul (L d N : ℕ) :
    ⌊((L : ℚ) / (N : ℚ)) * (d : ℚ)⌋₊ = L * d / N := by
  rw [div_mul_eq_mul_div, ← Nat.cast_mul, Nat.floor_div_nat, Nat.floor_natCast]

lemma newSize_width (L : ℕ) (img : ImgDims) :
    (newSize L img).width = L * img.width / numPixels img :=
  floor_shrinkFactor_mul L img.width (numPixels img)

lemma newSize_height (L : ℕ) (img : ImgDims) :
    (newSize L img).height = L * img.height / numPixels img :=
  floor_shrinkFactor_mul L img.height (numPixels img)

/-- The pixel count after resizing, times the original pixel count, is at
most `pix_limit ^ 2`: the source scales both dimensions by the linear factor
`pix_limit / N`. -/
lemma numPixels_newSize_mul_le (L : ℕ) (img : ImgDims) :
    numPixels (newSize L img) * numPixels img ≤ L * L := by
  set N := numPixels img with hN
  rcases Nat.eq_zero_or_pos N with h0 | hpos
  · simp [h0]
  · have hA : L * img.height / N * N ≤ L * img.height := Nat.div_mul_le_self _ _
    have hB : L * img.width / N * N ≤ L * img.width := Nat.div_mul_le_self _ _
    have hmul := Nat.mul_le_mul hA hB
    have hrhs : L * img.height * (L * img.width) = L * L * N := by
      rw [hN, numPixels]; ring
    have hlhs : L * img.height / N * N * (L * img.width / N * N)
        = numPixels (newSize L img) * N * N := by
      rw [numPixels, newSize_width, newSize_height, ← hN]; ring
    rw [hlhs, hrhs] at hmul
    exact Nat.le_of_mul_le_mul_right hmul hpos

/-- If the image is over the limit, the resized pixel count is within the
limit. -/
lemma numPixels_newSize_le (L : ℕ) (img : ImgDims) (h : L < numPixels img) :
    numPixels (newSize L img) ≤ L := by
  have hpos : 0 < numPixels img := lt_of_le_of_lt (Nat.zero_le L) h
  have h1 := numPixels_newSize_mul_le L img
  have h2 : L * L ≤ L * numPixels img :=
    Nat.mul_le_mul_left L (le_of_lt h)
  exact Nat.le_of_mul_le_mul_right (le_trans h1 h2) hpos

/-- C1: with `skip_resize` false, an image exactly at the pixel limit is not
resized (`shrink_large` returns `False` and the file is unchanged), and an
image over the limit is resized to a pixel count at most the limit. -/
theorem C1_shrink_large_at_and_over_limit (img : ImgDims) (L : ℕ) :
    (numPixels img = L → shrink_large img L false = (false, img)) ∧
    (L < numPixels img →
      (shrink_large img L false).1 = true ∧
      numPixels (shrink_large img L false).2 ≤ L) := by
  constructor
  · intro h
    simp [shrink_large, h]
  · intro h
    constructor
    · simp [shrink_large, h]
    · simp only [shrink_large, if_neg Bool.false_ne_true, gt_iff_lt, if_pos h]
      exact numPixels_newSize_le L img h

/-- Witness for C1: a 1900×1000 image (1 900 000 pixels) at limit 1 900 000
is untouched; a 1901×1000 image is resized to at most the limit. -/
theorem C1_witness :
    shrink_large ⟨1900, 1000⟩ 1900000 false = (false, ⟨1900, 1000⟩) ∧
    ((shrink_large ⟨1901, 1000⟩ 1900000 false).1 = true ∧
      numPixels (shrink_large ⟨1901, 1000⟩ 1900000 false).2 ≤ 1900000) :=
  ⟨(C1_shrink_large_at_and_over_limit ⟨1900, 1000⟩ 1900000).1 (by decide),
   (C1_shrink_large_at_and_over_limit ⟨1901, 1000⟩ 1900000).2 (by decide)⟩

/-- C2 counterexample: a 2000×2000 image (4 000 000 pixels) with limit
1 000 000 is resized to 500×500 = 250 000 pixels — one quarter of the limit.
A scale factor equivalent to `sqrt(limit / pixel count)` (here 1/2) would
have produced 1000×1000 = 1 000 000 ≈ the limit; the code instead applies
the linear factor `limit / pixel count` (here 1/4) to each dimension, so the
resized pixel count is far below the limit, refuting the claim. -/
theorem C2_counterexample :
    (shrink_large ⟨2000, 2000⟩ 1000000 false).2 = ⟨500, 500⟩ ∧
    numPixels (shrink_large ⟨2000, 2000⟩ 1000000 false).2 * 4 = 1000000 := by
  have hres : (shrink_large ⟨2000, 2000⟩ 1000000 false).2
      = newSize 1000000 ⟨2000, 2000⟩ := by
    simp [shrink_large, numPixels]
  have hw := newSize_width 1000000 ⟨2000, 2000⟩
  have hh := newSize_height 1000000 ⟨2000, 2000⟩
  have heq : newSize 1000000 ⟨2000, 2000⟩ = ⟨500, 500⟩ := by
    apply ImgDims.ext
    · rw [hw]; decide
    · rw [hh]; decide
  constructor
  · rw [hres, heq]
  · rw [hres, heq]; decide

/-- C2 amended: when the pixel count `N` exceeds the limit `L`,
`shrink_large` scales width and height each by the linear factor `L / N`
(truncated), not by `sqrt(L / N)`; consequently the resulting pixel count is
bounded by `L² / N` (stated multiplicatively), which is at most `L` but in
general far below it. -/
theorem C2_linear_ratio_scaling (img : ImgDims) (L : ℕ)
    (h : L < numPixels img) :
    (shrink_large img L false).2.width = L * img.width / numPixels img ∧
    (shrink_large img L false).2.height = L * img.height / numPixels img ∧
    numPixels (shrink_large img L false).2 * numPixels img ≤ L * L := by
  have hres : (shrink_large img L false).2 = newSize L img := by
    simp [shrink_large, h]
  rw [hres]
  exact ⟨newSize_width L img, newSize_height L img,
    numPixels_newSize_mul_le L img⟩

/-- Witness for the amended C2 at the 2000×2000 image with limit
1 000 000. -/
theorem C2_witness :
    (shrink_large ⟨2000, 2000⟩ 1000000 false).2.width
        = 1000000 * 2000 / numPixels ⟨2000, 2000⟩ ∧
    (shrink_large ⟨2000, 2000⟩ 1000000 false).2.height
        = 1000000 * 2000 / numPixels ⟨2000, 2000⟩ ∧
    numPixels (shrink_large ⟨2000, 2000⟩ 1000000 false).2
        * numPixels ⟨2000, 2000⟩ ≤ 1000000 * 1000000 :=
  C2_linear_ratio_scaling ⟨2000, 2000⟩ 1000000 (by decide)

/-! ### Destination naming: `get_dest_filenames` -/

/-- Python `str.lower` on one character, on the ASCII range covered by the
catalog's file paths (`'A'..'Z'` map to `'a'..'z'`, all else unchanged). -/
def lowerChar (c : ℕ) : ℕ := if 65 ≤ c ∧ c ≤ 90 then c + 32 else c

/-- Characters the slug transform keeps: `a`–`z`, `0`–`9` and `-` (code 45). -/
def isSlugKeep (c : ℕ) : Bool :=
  (97 ≤ c && c ≤ 122) || (48 ≤ c && c ≤ 57) || c == 45

/-- Collapse runs of `-` (code 45) into a single `-`. -/
def collapseDashes : List ℕ → List ℕ
  | [] => []
  | [c] => [c]
  | c :: d :: rest =>
      if c == 45 && d == 45 then collapseDashes (d :: rest)
      else c :: collapseDashes (d :: rest)

/-- Strip leading and trailing `-` (code 45). -/
def stripDashes (s : List ℕ) : List ℕ :=
  ((s.dropWhile (· == 45)).reverse.dropWhile (· == 45)).reverse

/-- Modelled from the spec: `slugify.slugify`, the external slug transform
(§6: "text → filesystem-safe token (lowercase, ASCII-transliterated,
separator-normalized)"); not part of this repository. Lowercases, replaces
every character outside `[a-z0-9-]` with `-`, collapses `-` runs and strips
`-` from both ends; ASCII transliteration is the identity on the ASCII
paths in scope. -/
def slugify (s : List ℕ) : List ℕ :=
  stripDashes (collapseDashes
    ((s.map lowerChar).map fun c => if isSlugKeep c then c else 45))

/-- `pathlib` `.name`: the final path component (source paths are files, so
the degenerate root-only path does not arise). -/
def pathlibName (parts : List (List ℕ)) : List ℕ := (parts.getLast?).getD []

/-- `pathlib` `.suffix` of a name: from the last dot (code 46) on, provided
that dot is neither the first nor the last character; else empty. -/
def pathlibSuffix (name : List ℕ) : List ℕ :=
  match (name.reverse).findIdx? (· == 46) with
  | none => []
  | some j =>
      if 0 < name.length - 1 - j ∧ name.length - 1 - j < name.length - 1
      then name.drop (name.length - 1 - j) else []

/-- `pathlib` `.stem` of a name: the name up to (excluding) the suffix. -/
def pathlibStem (name : List ℕ) : List ℕ :=
  match (name.reverse).findIdx? (· == 46) with
  | none => name
  | some j =>
      if 0 < name.length - 1 - j ∧ name.length - 1 - j < name.length - 1
      then name.take (name.length - 1 - j) else name

/-- `_get_date_from_shotwell_directories`: `"-".join(filename.parts[-4:-1])`
— the three path components preceding the filename (fewer when the path is
short, exactly Python's clipping slice semantics). -/
def get_date_from_shotwell_directories (parts : List (List ℕ)) : List ℕ :=
  List.intercalate [45]
    ((parts.take (parts.length - 1)).drop (parts.length - 4))

/-- `pathlib` joining of two path fragments rendered with `as_posix()`:
empty fragments are dropped, otherwise joined with `/` (code 47). -/
def posixJoin (a b : List ℕ) : List ℕ :=
  if a = [] then b else if b = [] then a else a ++ 47 :: b

/-- Decimal digits of a natural number, as character codes (`fuel`-driven
recursion; `fuel = n + 1` always suffices). -/
def natDigitsAux : ℕ → ℕ → List ℕ
  | 0, _ => []
  | fuel + 1, n =>
      if n < 10 then [48 + n]
      else natDigitsAux fuel (n / 10) ++ [48 + n % 10]

/-- `str(n)` for a natural number, as character codes. -/
def natDigits (n : ℕ) : List ℕ := natDigitsAux (n + 1) n

/-- Python `f"{n:02}"`: zero-pad to width two. -/
def format02 (n : ℕ) : List ℕ :=
  if n < 10 then 48 :: natDigits n else natDigits n

/-- `subdir_num = i // args.pics_per_subdir` (line 63). -/
def subdir_num (i pics_per_subdir : ℕ) : ℕ := i / pics_per_subdir

/-- `_make_new_dir_if_needed`: the directory the `i`-th photo goes into,
`Path(DEST_DIR, f"subdir{subdir_num:02}")`; the lazy `mkdir` side effect is
not modelled. `destRoot` stands for the module-level `DEST_DIR`. -/
def make_new_dir_if_needed (destRoot : List ℕ) (pics_per_subdir i : ℕ) :
    List ℕ :=
  posixJoin destRoot (pystr "subdir" ++ format02 (subdir_num i pics_per_subdir))

/-- The destination file name built in `_make_dest_name`:
`slugify(Path(date, orig.stem).as_posix()) + orig.suffix.lower()`. -/
def dest_file_name (parts : List (List ℕ)) : List ℕ :=
  slugify (posixJoin (get_date_from_shotwell_directories parts)
      (pathlibStem (pathlibName parts)))
    ++ (pathlibSuffix (pathlibName parts)).map lowerChar

/-- `_make_dest_name(orig, i)`: the full destination path
`Path(_make_new_dir_if_needed(i), slug)`. -/
def make_dest_name (destRoot : List ℕ) (pics_per_subdir : ℕ)
    (orig : List (List ℕ)) (i : ℕ) : List ℕ :=
  posixJoin (make_new_dir_if_needed destRoot pics_per_subdir i)
    (dest_file_name orig)

/-- `get_dest_filenames(orig_files, args)`: the enumerated list of
`(original, destination)` pairs. -/
def get_dest_filenames (destRoot : List ℕ) (orig_files : List (List (List ℕ)))
    (pics_per_subdir : ℕ) : List (List (List ℕ) × List ℕ) :=
  orig_files.enum.map fun p => (p.2, make_dest_name destRoot pics_per_subdir p.2 p.1)

/-! ### Character-level facts about the naming pipeline -/

lemma lowerChar_eq_47 {c : ℕ} (h : lowerChar c = 47) : c = 47 := by
  unfold lowerChar at h
  split at h <;> omega

lemma mem_collapseDashes : ∀ {s : List ℕ} {c : ℕ},
    c ∈ collapseDashes s → c ∈ s := by
  intro s
  induction s with
  | nil => intro c h; simp [collapseDashes] at h
  | cons a t ih =>
    intro c h
    cases t with
    | nil => simpa [collapseDashes] using h
    | cons d rest =>
      simp only [collapseDashes] at h
      split at h
      · exact List.mem_cons_of_mem a (ih h)
      · rcases List.mem_cons.1 h with h1 | h2
        · exact h1 ▸ List.mem_cons_self a _
        · exact List.mem_cons_of_mem a (ih h2)

lemma mem_stripDashes {s : List ℕ} {c : ℕ} (h : c ∈ stripDashes s) :
    c ∈ s := by
  unfold stripDashes at h
  rw [List.mem_reverse] at h
  have h1 := (List.dropWhile_sublist _).subset h
  rw [List.mem_reverse] at h1
  exact (List.dropWhile_sublist _).subset h1

/-- Every character the slug transform emits is in `[a-z0-9-]`. -/
lemma isSlugKeep_of_mem_slugify {s : List ℕ} {c : ℕ}
    (h : c ∈ slugify s) : isSlugKeep c = true := by
  unfold slugify at h
  have h1 := mem_collapseDashes (mem_stripDashes h)
  rw [List.mem_map] at h1
  obtain ⟨d, _, hd⟩ := h1
  by_cases hk : isSlugKeep d
  · rw [if_pos hk] at hd; exact hd ▸ hk
  · rw [if_neg hk] at hd; rw [← hd]; decide

/-- The suffix of a name consists of characters of that name. -/
lemma mem_pathlibSuffix {name : List ℕ} {c : ℕ}
    (h : c ∈ pathlibSuffix name) : c ∈ name := by
  unfold pathlibSuffix at h
  split at h
  · simp at h
  · split at h
    · exact List.drop_subset _ _ h
    · simp at h

/-- C3 counterexample: for the source `2022/06/01/a.J*G` the produced
destination filename is `2022-06-01-a.j*g`, which contains `*` (code 42) —
a character outside the filesystem-safe subset — because the original
extension is appended after lowercasing but without slugification. -/
theorem C3_counterexample :
    (42 : ℕ) ∈ dest_file_name
      [pystr "2022", pystr "06", pystr "01", pystr "a.J*G"] ∧
    isSlugKeep 42 = false ∧
    dest_file_name [pystr "2022", pystr "06", pystr "01", pystr "a.J*G"]
      = pystr "2022-06-01-a.j*g" := by decide

/-- C3 amended: the destination filename never contains a path separator
(`/`, code 47) provided the source's final component contains none (which
`pathlib` guarantees); every character of the filename either lies in the
slug-safe subset `[a-z0-9-]` or comes verbatim from the lowercased original
extension — so unsafe characters can enter only through the extension. -/
theorem C3_no_separators_outside_extension (parts : List (List ℕ))
    (h : (47 : ℕ) ∉ pathlibName parts) :
    (47 : ℕ) ∉ dest_file_name parts ∧
    ∀ c ∈ dest_file_name parts,
      isSlugKeep c = true ∨
        c ∈ (pathlibSuffix (pathlibName parts)).map lowerChar := by
  constructor
  · intro hc
    rw [dest_file_name, List.mem_append] at hc
    rcases hc with hc | hc
    · exact absurd (isSlugKeep_of_mem_slugify hc) (by decide)
    · rw [List.mem_map] at hc
      obtain ⟨d, hd, hlow⟩ := hc
      exact h (lowerChar_eq_47 hlow ▸ mem_pathlibSuffix hd)
  · intro c hc
    rw [dest_file_name, List.mem_append] at hc
    rcases hc with hc | hc
    · exact Or.inl (isSlugKeep_of_mem_slugify hc)
    · exact Or.inr hc

/-- Witness for the amended C3 at the source `2022/06/01/a.jpg`. -/
theorem C3_witness :
    (47 : ℕ) ∉ dest_file_name
      [pystr "2022", pystr "06", pystr "01", pystr "a.jpg"] ∧
    ∀ c ∈ dest_file_name [pystr "2022", pystr "06", pystr "01", pystr "a.jpg"],
      isSlugKeep c = true ∨
        c ∈ (pathlibSuffix (pathlibName
          [pystr "2022", pystr "06", pystr "01", pystr "a.jpg"])).map lowerChar :=
  C3_no_separators_outside_extension
    [pystr "2022", pystr "06", pystr "01", pystr "a.jpg"] (by decide)

/-! ### C4 and C5: bucketing and the worked example -/

lemma posixJoin_eq {a b : List ℕ} (ha : a ≠ []) (hb : b ≠ []) :
    posixJoin a b = a ++ 47 :: b := by
  simp [posixJoin, ha, hb]

/-- C4: the spec's worked example. With bucket capacity 1, the sources
`2022/06/01/a.jpg` and `2022/06/01/b.jpg` map to `subdir00/2022-06-01-a.jpg`
and `subdir01/2022-06-01-b.jpg` under the destination root. -/
theorem C4_worked_example (r : List ℕ) (hr : r ≠ []) :
    get_dest_filenames r
      [[pystr "2022", pystr "06", pystr "01", pystr "a.jpg"],
       [pystr "2022", pystr "06", pystr "01", pystr "b.jpg"]] 1 =
    [([pystr "2022", pystr "06", pystr "01", pystr "a.jpg"],
        r ++ pystr "/subdir00/2022-06-01-a.jpg"),
     ([pystr "2022", pystr "06", pystr "01", pystr "b.jpg"],
        r ++ pystr "/subdir01/2022-06-01-b.jpg")] := by
  have e1 : make_dest_name r 1
      [pystr "2022", pystr "06", pystr "01", pystr "a.jpg"] 0
      = r ++ pystr "/subdir00/2022-06-01-a.jpg" := by
    show posixJoin (posixJoin r (pystr "subdir" ++ format02 (subdir_num 0 1)))
      (dest_file_name [pystr "2022", pystr "06", pystr "01", pystr "a.jpg"]) = _
    rw [posixJoin_eq hr (by decide), posixJoin_eq (by simp) (by decide),
      List.append_assoc]
    congr 1
  have e2 : make_dest_name r 1
      [pystr "2022", pystr "06", pystr "01", pystr "b.jpg"] 1
      = r ++ pystr "/subdir01/2022-06-01-b.jpg" := by
    show posixJoin (posixJoin r (pystr "subdir" ++ format02 (subdir_num 1 1)))
      (dest_file_name [pystr "2022", pystr "06", pystr "01", pystr "b.jpg"]) = _
    rw [posixJoin_eq hr (by decide), posixJoin_eq (by simp) (by decide),
      List.append_assoc]
    congr 1
  have e0 : get_dest_filenames r
      [[pystr "2022", pystr "06", pystr "01", pystr "a.jpg"],
       [pystr "2022", pystr "06", pystr "01", pystr "b.jpg"]] 1
      = [([pystr "2022", pystr "06", pystr "01", pystr "a.jpg"],
            make_dest_name r 1
              [pystr "2022", pystr "06", pystr "01", pystr "a.jpg"] 0),
         ([pystr "2022", pystr "06", pystr "01", pystr "b.jpg"],
            make_dest_name r 1
              [pystr "2022", pystr "06", pystr "01", pystr "b.jpg"] 1)] := rfl
  rw [e0, e1, e2]

/-- Witness for C4 at a concrete destination root. -/
theorem C4_witness :
    get_dest_filenames (pystr "/home/user/Dropbox/five-star-pics")
      [[pystr "2022", pystr "06", pystr "01", pystr "a.jpg"],
       [pystr "2022", pystr "06", pystr "01", pystr "b.jpg"]] 1 =
    [([pystr "2022", pystr "06", pystr "01", pystr "a.jpg"],
        pystr "/home/user/Dropbox/five-star-pics"
          ++ pystr "/subdir00/2022-06-01-a.jpg"),
     ([pystr "2022", pystr "06", pystr "01", pystr "b.jpg"],
        pystr "/home/user/Dropbox/five-star-pics"
          ++ pystr "/subdir01/2022-06-01-b.jpg")] :=
  C4_worked_example (pystr "/home/user/Dropbox/five-star-pics") (by decide)

/-- C5: in the plan built by `get_dest_filenames`, the item at 0-based
position `i` is paired with the destination built from bucket number
`i // pics_per_subdir`, and bucket numbers are monotonically non-decreasing
in the position. -/
theorem C5_bucket_numbers (r : List ℕ) (srcs : List (List (List ℕ)))
    (cap i j : ℕ) (_hcap : 0 < cap) (hij : i ≤ j) (hi : i < srcs.length) :
    (get_dest_filenames r srcs cap)[i]? =
      some (srcs.getD i [], make_dest_name r cap (srcs.getD i []) i) ∧
    subdir_num i cap = i / cap ∧
    subdir_num i cap ≤ subdir_num j cap := by
  refine ⟨?_, rfl, Nat.div_le_div_right hij⟩
  rw [get_dest_filenames, List.getElem?_map, List.getElem?_enum,
    List.getElem?_eq_getElem hi, List.getD_eq_getElem srcs [] hi]
  rfl

/-- Witness for C5: four sources, capacity two, positions 1 ≤ 3. -/
theorem C5_witness :
    (get_dest_filenames [] [[], [], [], []] 2)[1]? =
      some (([[], [], [], []] : List (List (List ℕ))).getD 1 [],
        make_dest_name [] 2 (([[], [], [], []] : List (List (List ℕ))).getD 1 []) 1) ∧
    subdir_num 1 2 = 1 / 2 ∧
    subdir_num 1 2 ≤ subdir_num 3 2 :=
  C5_bucket_numbers [] [[], [], [], []] 2 1 3 (by decide) (by decide) (by decide)

/-! ### The copy/resize loop: `copy_and_resize` -/

/-- Outcome of the copy phase for one item (lines 94–98): the destination
already exists, the copy succeeds, or the source is missing and
`orig.copy(dest)` raises `FileNotFoundError`. -/
inductive CopyOutcome
  | destExists
  | copyOk
  | srcMissing
deriving DecidableEq

/-- What `Image.open` on the destination yields during the resize phase:
the image's dimensions, or an `OSError` (decode/encode failure). -/
inductive OpenResult
  | image (img : ImgDims)
  | osError
deriving DecidableEq

/-- One planned item: the source path together with the filesystem and
codec responses for it (supplied as data, since the embedding has no real
filesystem). -/
structure PlanItem where
  orig : List ℕ
  copy : CopyOutcome
  opened : OpenResult
deriving DecidableEq

/-- The `counts` accumulator
(`dict(already_there=0, copied=0, error=0, resized=[])`, line 87). -/
@[ext]
structure Counts where
  already_there : ℕ
  copied : ℕ
  error : ℕ
  resized : List (List ℕ)
deriving DecidableEq

/-- Result of the `shrink_large(dest, ...)` call inside the loop: `none`
models an `OSError` escaping to the `except` clause (line 126), `some b` a
normal return of `b`. When `skip_resize` is set the image is never opened,
so no error can occur and the result is `False`. -/
def shrink_large_outcome (opened : OpenResult) (pix_limit : ℕ)
    (skip_resize : Bool) : Option Bool :=
  if skip_resize then some false
  else match opened with
    | .osError => none
    | .image img => some (shrink_large img pix_limit false).1

/-- The resize phase for one item (lines 104–128): on `OSError` the counts
are untouched (logged only); on a resize the source path is appended to
`resized`; otherwise nothing changes. -/
def resizePhase (pix_limit : ℕ) (skip_resize : Bool) (c : Counts)
    (it : PlanItem) : Counts :=
  match shrink_large_outcome it.opened pix_limit skip_resize with
  | none => c
  | some true => { c with resized := c.resized ++ [it.orig] }
  | some false => c

/-- One iteration of the loop body (lines 92–128): the copy phase updates
one counter, a missing source skips the resize phase (`continue`). -/
def processItem (pix_limit : ℕ) (skip_resize : Bool) (c : Counts)
    (it : PlanItem) : Counts :=
  match it.copy with
  | .srcMissing => { c with error := c.error + 1 }
  | .destExists =>
      resizePhase pix_limit skip_resize
        { c with already_there := c.already_there + 1 } it
  | .copyOk =>
      resizePhase pix_limit skip_resize
        { c with copied := c.copied + 1 } it

/-- `copy_and_resize`: fold the loop body over the whole plan, starting
from zeroed counts. -/
def copy_and_resize (pix_limit : ℕ) (skip_resize : Bool)
    (plan : List PlanItem) : Counts :=
  plan.foldl (processItem pix_limit skip_resize) ⟨0, 0, 0, []⟩

/-- The resize phase never touches the three scalar counters and grows the
resized list by at most one entry. -/
lemma resizePhase_counters (L : ℕ) (skip : Bool) (c : Counts)
    (it : PlanItem) :
    (resizePhase L skip c it).already_there = c.already_there ∧
    (resizePhase L skip c it).copied = c.copied ∧
    (resizePhase L skip c it).error = c.error ∧
    (resizePhase L skip c it).resized.length ≤ c.resized.length + 1 := by
  unfold resizePhase
  split <;> simp

/-- C6: a missing source increments only the error counter (already_there,
copied and resized untouched, resize phase skipped by the `continue`), and
the batch goes on: the fold over `pre ++ it :: post` keeps processing every
item of `post` after the failing item. -/
theorem C6_missing_source_nonfatal (L : ℕ) (skip : Bool) (c : Counts)
    (it : PlanItem) (h : it.copy = CopyOutcome.srcMissing)
    (pre post : List PlanItem) :
    processItem L skip c it = { c with error := c.error + 1 } ∧
    copy_and_resize L skip (pre ++ it :: post) =
      List.foldl (processItem L skip)
        (processItem L skip (copy_and_resize L skip pre) it) post := by
  constructor
  · unfold processItem
    rw [h]
  · rw [copy_and_resize, List.foldl_append, List.foldl_cons]
    rfl

/-- Witness for C6: a single-item batch whose source is missing. -/
theorem C6_witness :
    processItem 100 false ⟨0, 0, 0, []⟩
        ⟨pystr "x.jpg", CopyOutcome.srcMissing, OpenResult.osError⟩
      = ⟨0, 0, 1, []⟩ ∧
    copy_and_resize 100 false
        ([] ++ ⟨pystr "x.jpg", CopyOutcome.srcMissing, OpenResult.osError⟩ :: []) =
      List.foldl (processItem 100 false)
        (processItem 100 false (copy_and_resize 100 false [])
          ⟨pystr "x.jpg", CopyOutcome.srcMissing, OpenResult.osError⟩) [] :=
  C6_missing_source_nonfatal 100 false ⟨0, 0, 0, []⟩
    ⟨pystr "x.jpg", CopyOutcome.srcMissing, OpenResult.osError⟩ rfl [] []

/-- C7: when the resize phase raises an `OSError` after a successful copy
phase, the item lands in neither `resized` nor `error`; the `already_there`
or `copied` increment from the copy phase is retained, and the batch
continues with the remaining items. -/
theorem C7_resize_error_uncounted (L : ℕ) (skip : Bool) (c : Counts)
    (it : PlanItem) (pre post : List PlanItem)
    (hcopy : it.copy ≠ CopyOutcome.srcMissing)
    (hres : shrink_large_outcome it.opened L skip = none) :
    (processItem L skip c it).error = c.error ∧
    (processItem L skip c it).resized = c.resized ∧
    (it.copy = CopyOutcome.destExists →
      processItem L skip c it
        = { c with already_there := c.already_there + 1 }) ∧
    (it.copy = CopyOutcome.copyOk →
      processItem L skip c it = { c with copied := c.copied + 1 }) ∧
    copy_and_resize L skip (pre ++ it :: post) =
      List.foldl (processItem L skip)
        (processItem L skip (copy_and_resize L skip pre) it) post := by
  have hp : ∀ c' : Counts, resizePhase L skip c' it = c' := by
    intro c'
    unfold resizePhase
    rw [hres]
  have hcont : copy_and_resize L skip (pre ++ it :: post) =
      List.foldl (processItem L skip)
        (processItem L skip (copy_and_resize L skip pre) it) post := by
    rw [copy_and_resize, List.foldl_append, List.foldl_cons]
    rfl
  rcases hcase : it.copy with _ | _ | _
  · refine ⟨?_, ?_, ?_, ?_, hcont⟩ <;>
      simp [processItem, hcase, hp]
  · refine ⟨?_, ?_, ?_, ?_, hcont⟩ <;>
      simp [processItem, hcase, hp]
  · exact absurd hcase hcopy

/-- Witness for C7: the destination exists but decoding it fails. -/
theorem C7_witness :
    (processItem 100 false ⟨0, 0, 0, []⟩
        ⟨pystr "y.jpg", CopyOutcome.destExists, OpenResult.osError⟩).error = 0 ∧
    (processItem 100 false ⟨0, 0, 0, []⟩
        ⟨pystr "y.jpg", CopyOutcome.destExists, OpenResult.osError⟩).resized = [] ∧
    ((⟨pystr "y.jpg", CopyOutcome.destExists, OpenResult.osError⟩ : PlanItem).copy
        = CopyOutcome.destExists →
      processItem 100 false ⟨0, 0, 0, []⟩
          ⟨pystr "y.jpg", CopyOutcome.destExists, OpenResult.osError⟩
        = ⟨1, 0, 0, []⟩) ∧
    ((⟨pystr "y.jpg", CopyOutcome.destExists, OpenResult.osError⟩ : PlanItem).copy
        = CopyOutcome.copyOk →
      processItem 100 false ⟨0, 0, 0, []⟩
          ⟨pystr "y.jpg", CopyOutcome.destExists, OpenResult.osError⟩
        = ⟨0, 1, 0, []⟩) ∧
    copy_and_resize 100 false
        ([] ++ ⟨pystr "y.jpg", CopyOutcome.destExists, OpenResult.osError⟩ :: []) =
      List.foldl (processItem 100 false)
        (processItem 100 false (copy_and_resize 100 false [])
          ⟨pystr "y.jpg", CopyOutcome.destExists, OpenResult.osError⟩) [] :=
  C7_resize_error_uncounted 100 false ⟨0, 0, 0, []⟩
    ⟨pystr "y.jpg", CopyOutcome.destExists, OpenResult.osError⟩ [] []
    (by decide) rfl

/-- When every destination already exists and every stored image is within
the pixel budget, the loop only increments `already_there`. -/
lemma copy_and_resize_all_present (L : ℕ) :
    ∀ plan : List PlanItem,
      (∀ it ∈ plan, it.copy = CopyOutcome.destExists ∧
        ∀ img, it.opened = OpenResult.image img → numPixels img ≤ L) →
      ∀ c : Counts, List.foldl (processItem L false) c plan
        = { c with already_there := c.already_there + plan.length } := by
  intro plan
  induction plan with
  | nil => intro _ c; rfl
  | cons it rest ih =>
    intro h c
    obtain ⟨hcopy, hopen⟩ := h it (List.mem_cons_self it rest)
    have hrest := fun it' hm => h it' (List.mem_cons_of_mem it hm)
    have hstep : processItem L false c it
        = { c with already_there := c.already_there + 1 } := by
      unfold processItem
      rw [hcopy]
      unfold resizePhase shrink_large_outcome
      cases ho : it.opened with
      | osError => simp
      | image img =>
        have hle := hopen img ho
        simp [shrink_large, Nat.not_lt.2 hle]
    rw [List.foldl_cons, hstep, ih hrest, List.length_cons]
    apply Counts.ext <;> simp
    omega

/-- C8: a second run with every destination already present and every
stored image already within the pixel budget copies nothing, resizes
nothing, and counts every item as `already_there`. -/
theorem C8_second_run_all_already_there (L : ℕ) (plan : List PlanItem)
    (h : ∀ it ∈ plan, it.copy = CopyOutcome.destExists ∧
      ∀ img, it.opened = OpenResult.image img → numPixels img ≤ L) :
    copy_and_resize L false plan =
      { already_there := plan.length, copied := 0, error := 0,
        resized := [] } := by
  rw [copy_and_resize, copy_and_resize_all_present L plan h ⟨0, 0, 0, []⟩]
  apply Counts.ext <;> simp

/-- Witness for C8: one item whose destination exists with a 10×10 image,
limit 200. -/
theorem C8_witness :
    copy_and_resize 200 false
        [⟨pystr "a.jpg", CopyOutcome.destExists, OpenResult.image ⟨10, 10⟩⟩] =
      ⟨1, 0, 0, []⟩ :=
  C8_second_run_all_already_there 200
    [⟨pystr "a.jpg", CopyOutcome.destExists, OpenResult.image ⟨10, 10⟩⟩]
    (by
      intro it hit
      simp only [List.mem_singleton] at hit
      subst hit
      refine ⟨rfl, ?_⟩
      intro img himg
      injection himg with himg
      rw [← himg]
      decide)

/-- Each loop iteration increments exactly one of the three scalar
counters. -/
lemma processItem_sum (L : ℕ) (skip : Bool) (c : Counts) (it : PlanItem) :
    (processItem L skip c it).already_there + (processItem L skip c it).copied
        + (processItem L skip c it).error
      = c.already_there + c.copied + c.error + 1 := by
  unfold processItem
  cases it.copy with
  | srcMissing => simp; omega
  | destExists =>
    obtain ⟨h1, h2, h3, _⟩ :=
      resizePhase_counters L skip { c with already_there := c.already_there + 1 } it
    rw [h1, h2, h3]
    simp
    omega
  | copyOk =>
    obtain ⟨h1, h2, h3, _⟩ :=
      resizePhase_counters L skip { c with copied := c.copied + 1 } it
    rw [h1, h2, h3]
    simp
    omega

/-- The loop preserves `resized.length ≤ already_there + copied`. -/
lemma processItem_resized_le (L : ℕ) (skip : Bool) (c : Counts)
    (it : PlanItem) (h : c.resized.length ≤ c.already_there + c.copied) :
    (processItem L skip c it).resized.length
      ≤ (processItem L skip c it).already_there
          + (processItem L skip c it).copied := by
  unfold processItem
  cases it.copy with
  | srcMissing => simpa using h
  | destExists =>
    obtain ⟨h1, h2, _, h4⟩ :=
      resizePhase_counters L skip { c with already_there := c.already_there + 1 } it
    rw [h1, h2]
    simp only at h4 ⊢
    omega
  | copyOk =>
    obtain ⟨h1, h2, _, h4⟩ :=
      resizePhase_counters L skip { c with copied := c.copied + 1 } it
    rw [h1, h2]
    simp only at h4 ⊢
    omega

lemma copy_and_resize_sum (L : ℕ) (skip : Bool) :
    ∀ (plan : List PlanItem) (c : Counts),
      (List.foldl (processItem L skip) c plan).already_there
          + (List.foldl (processItem L skip) c plan).copied
          + (List.foldl (processItem L skip) c plan).error
        = c.already_there + c.copied + c.error + plan.length := by
  intro plan
  induction plan with
  | nil => intro c; simp
  | cons it rest ih =>
    intro c
    have h1 := ih (processItem L skip c it)
    have h2 := processItem_sum L skip c it
    rw [List.foldl_cons, List.length_cons]
    omega

lemma copy_and_resize_resized_le (L : ℕ) (skip : Bool) :
    ∀ (plan : List PlanItem) (c : Counts),
      c.resized.length ≤ c.already_there + c.copied →
      (List.foldl (processItem L skip) c plan).resized.length
        ≤ (List.foldl (processItem L skip) c plan).already_there
            + (List.foldl (processItem L skip) c plan).copied := by
  intro plan
  induction plan with
  | nil => intro c h; simpa using h
  | cons it rest ih =>
    intro c h
    rw [List.foldl_cons]
    exact ih (processItem L skip c it) (processItem_resized_le L skip c it h)

/-- C10: each item increments exactly one of `already_there`, `copied`,
`error`, so after the whole batch the three counters sum to the number of
items, and the resized list never outgrows `already_there + copied`. -/
theorem C10_counter_accounting (L : ℕ) (skip : Bool)
    (plan : List PlanItem) :
    (∀ (c : Counts) (it : PlanItem),
      (processItem L skip c it).already_there
          + (processItem L skip c it).copied + (processItem L skip c it).error
        = c.already_there + c.copied + c.error + 1) ∧
    (copy_and_resize L skip plan).already_there
        + (copy_and_resize L skip plan).copied
        + (copy_and_resize L skip plan).error = plan.length ∧
    (copy_and_resize L skip plan).resized.length
      ≤ (copy_and_resize L skip plan).already_there
          + (copy_and_resize L skip plan).copied := by
  refine ⟨processItem_sum L skip, ?_, ?_⟩
  · have h0 := copy_and_resize_sum L skip plan ⟨0, 0, 0, []⟩
    simp only [Counts.mk.injEq] at h0
    simp at h0
    rw [copy_and_resize]
    omega
  · exact copy_and_resize_resized_le L skip plan ⟨0, 0, 0, []⟩ (by simp)

/-! ### `parse_args` and the string-typed numeric flags -/

/-- A Python value as it flows out of argparse: an `int` or a `str`. -/
inductive PyVal
  | intV (n : ℤ)
  | strV (s : List ℕ)
deriving DecidableEq

/-- The dynamic error a mixed-type arithmetic/comparison raises. -/
inductive PyError
  | typeError
deriving DecidableEq

/-- The parsed argument namespace (destinations named as in the source). -/
structure ArgsNamespace where
  CLEAR_ALL_PHOTOS : Bool
  RESIZE_SKIP : Bool
  PIX_LIMIT : PyVal
  pics_per_subdir : PyVal
deriving DecidableEq

/-- `parse_args` (lines 132–162): `--clear-all` and `--resize-skip` are
`store_true` flags; `--max-pix-count` and `--pics-per-subdir` declare no
`type=` converter, so when supplied argparse stores the raw command-line
token as a `str`, while the `default` values `1900000` and `1024` are
Python `int`s used as-is when the flag is omitted. -/
def parse_args (clear_all resize_skip : Bool)
    (max_pix_count pics_per_subdir : Option (List ℕ)) : ArgsNamespace :=
  { CLEAR_ALL_PHOTOS := clear_all
    RESIZE_SKIP := resize_skip
    PIX_LIMIT :=
      match max_pix_count with
      | none => .intV 1900000
      | some s => .strV s
    pics_per_subdir :=
      match pics_per_subdir with
      | none => .intV 1024
      | some s => .strV s }

/-- Python's `n > v` with `n` an `int`: comparing an `int` with a `str`
raises `TypeError` (as at `num_pixels > pix_limit`, line 43). -/
def pyGtInt (n : ℤ) : PyVal → Except PyError Bool
  | .intV m => .ok (decide (n > m))
  | .strV _ => .error .typeError

/-- Python's `n // v` with `n` an `int`: floor division on `int`s,
`TypeError` against a `str` (as at `i // args.pics_per_subdir`, line 63). -/
def pyFloorDivInt (n : ℤ) : PyVal → Except PyError ℤ
  | .intV m => .ok (Int.fdiv n m)
  | .strV _ => .error .typeError

/-- C9: when `--max-pix-count` or `--pics-per-subdir` is supplied, the
value is stored as a string, so the comparison in `shrink_large` and the
floor division in the bucket computation raise `TypeError`; the integer
defaults 1900000 and 1024 take effect only when the flags are omitted. -/
theorem C9_numeric_flags_are_strings (s t : List ℕ) (numPx i : ℤ)
    (ca rs : Bool) :
    (parse_args ca rs (some s) (some t)).PIX_LIMIT = PyVal.strV s ∧
    (parse_args ca rs (some s) (some t)).pics_per_subdir = PyVal.strV t ∧
    pyGtInt numPx (parse_args ca rs (some s) (some t)).PIX_LIMIT
      = Except.error PyError.typeError ∧
    pyFloorDivInt i (parse_args ca rs (some s) (some t)).pics_per_subdir
      = Except.error PyError.typeError ∧
    (parse_args ca rs none none).PIX_LIMIT = PyVal.intV 1900000 ∧
    (parse_args ca rs none none).pics_per_subdir = PyVal.intV 1024 :=
  ⟨rfl, rfl, rfl, rfl, rfl, rfl⟩
